import Mathlib

/-!
Shallow embedding of the scanning and orchestration core of the SDR-Scan
repository (Python), together with theorems settling the specification
claims about it.

Conventions of the embedding:
* Python floats are modelled by `ℚ` wherever the code only does field
  arithmetic and comparisons, and by `ℝ` where it takes logarithms or
  exponentials (the spectrum-averaging path).
* Python `int(x)` (truncation toward zero) is `pyInt`.
* numpy arrays are `List`s; `xs.getD i d` stands for an index access that
  the surrounding control flow keeps in bounds.
* Exceptions are `Except`; I/O outcomes of the external world (hardware
  open calls, the database session, the worker thread) enter as explicit
  boolean parameters of the operations that perform them.
-/

/-- Python `int(x)` on a rational: truncation toward zero. -/
def pyInt (q : ℚ) : ℤ := if 0 ≤ q then ⌊q⌋ else ⌈q⌉

/-- Python slice `xs[t:-t]`. For `t = 0` the slice `xs[0:-0] = xs[0:0]` is
empty, exactly as in Python; for `t > 0` it drops `t` items at each end. -/
def pySliceTrim (t : ℕ) {α : Type} (xs : List α) : List α :=
  if t = 0 then [] else (xs.drop t).take (xs.length - 2 * t)

/-- Embedding of `np.sort` on a rational array (stable comparison sort;
the implementation uses insertion sort, which is structurally recursive
and therefore convenient to evaluate and reason about). -/
def npSort (xs : List ℚ) : List ℚ := xs.insertionSort (· ≤ ·)

/-- Embedding of `np.median` on a nonempty sorted-or-not array: sort, take
the middle element, or the mean of the two middle elements. (The callers
in the source guard the empty case themselves.) -/
def npMedian (xs : List ℚ) : ℚ :=
  let s := npSort xs
  let n := xs.length
  if n % 2 = 1 then s.getD (n / 2) 0
  else (s.getD (n / 2 - 1) 0 + s.getD (n / 2) 0) / 2

namespace SDRScan

/-! ### backend/sdr/base.py — ScanParameters -/

/-- Data of `ScanParameters` (backend/sdr/base.py). -/
structure ScanParameters where
  start_freq : ℚ
  stop_freq : ℚ
  bin_size : ℚ
  sample_rate : ℚ
  gain : ℤ
  integration_time : ℚ
  fft_size : ℕ
  deriving DecidableEq

/-- Construction of `ScanParameters` including `__post_init__` validation
(backend/sdr/base.py lines 34-43): reject `start_freq >= stop_freq`,
`start_freq < 0`, `sample_rate <= 0`, `integration_time <= 0`. -/
def mkScanParameters (start stop bin rate : ℚ) (gain : ℤ) (integ : ℚ)
    (fft : ℕ) : Except String ScanParameters :=
  if start ≥ stop then .error "start_freq must be less than stop_freq"
  else if start < 0 then .error "start_freq must be positive"
  else if rate ≤ 0 then .error "sample_rate must be positive"
  else if integ ≤ 0 then .error "integration_time must be positive"
  else .ok ⟨start, stop, bin, rate, gain, integ, fft⟩

/-! ### backend/core/survey_manager.py — SurveyManager state machine -/

/-- Enumeration `SurveyState` (backend/core/survey_manager.py). -/
inductive SurveyState where
  | IDLE | INITIALIZING | SCANNING | MOVING | PAUSED
  | COMPLETING | COMPLETED | FAILED | CANCELLED
  deriving DecidableEq

/-- Enumeration `SurveyTypeEnum` (backend/storage/database.py). -/
inductive SurveyTypeEnum where
  | FIXED | MULTI_LOCATION | MOBILE
  deriving DecidableEq

/-- Data of `SurveyConfig` (backend/core/survey_manager.py); the location
dictionaries are modelled as latitude/longitude pairs. -/
structure SurveyConfig where
  survey_id : ℕ
  device_id : ℕ
  start_frequency : ℚ
  stop_frequency : ℚ
  sample_rate : ℚ
  gain : ℤ
  bandwidth : ℚ
  integration_time : ℚ
  survey_type : SurveyTypeEnum
  detect_signals : Bool
  signal_threshold_db : ℚ
  save_all_measurements : Bool
  locations : List (ℚ × ℚ)
  deriving DecidableEq

/-- Mutable fields of a `SurveyManager` instance. The optional device,
scanner and GPS handles are modelled by presence flags, and the worker
thread by a flag recording that it was launched. -/
structure SurveyManager where
  state : SurveyState
  current_survey : Option SurveyConfig
  progress : ℚ
  stop_requested : Bool
  pause_requested : Bool
  measurements_count : ℕ
  signals_count : ℕ
  start_time : ℚ
  current_step : ℕ
  total_steps : ℤ
  has_device : Bool
  has_scanner : Bool
  has_gps : Bool
  thread_started : Bool
  deriving DecidableEq

namespace SurveyManager

/-- Property `is_running` (survey_manager.py lines 119-122): the state is
one of `SCANNING`, `MOVING`, `INITIALIZING`. -/
def is_running (m : SurveyManager) : Bool :=
  m.state = .SCANNING ∨ m.state = .MOVING ∨ m.state = .INITIALIZING

/-- Method `_calculate_total_steps`: frequency steps
`int(ceil(range / (sample_rate * 0.8)))` times the number of locations for
a multi-location survey (1 otherwise). -/
def _calculate_total_steps (config : SurveyConfig) : ℤ :=
  let freq_steps : ℤ :=
    ⌈(config.stop_frequency - config.start_frequency) /
      (config.sample_rate * (8 / 10))⌉
  let location_steps : ℤ :=
    if config.survey_type = .MULTI_LOCATION then config.locations.length else 1
  freq_steps * location_steps

/-- Method `_cleanup`: close and drop the device, stop and drop GPS, drop
the scanner and the current survey config. -/
def _cleanup (m : SurveyManager) : SurveyManager :=
  { m with has_device := false, has_gps := false, has_scanner := false,
           current_survey := none }

/-- Method `start_survey` (survey_manager.py lines 166-252). The guard
`if self.is_running: return False` precedes every mutation. `setup_ok`
abstracts the outcome of the try block (database lookup, device open, GPS
start); on failure the except branch sets `FAILED` and runs `_cleanup`. -/
def start_survey (m : SurveyManager) (config : SurveyConfig) (now : ℚ)
    (setup_ok : Bool) : Bool × SurveyManager :=
  if m.is_running then (false, m)
  else
    let m1 : SurveyManager :=
      { m with current_survey := some config, state := .INITIALIZING,
               stop_requested := false, pause_requested := false,
               measurements_count := 0, signals_count := 0,
               start_time := now, progress := 0 }
    if setup_ok then
      let m2 : SurveyManager :=
        { m1 with has_device := true, has_scanner := true, has_gps := true,
                  total_steps := _calculate_total_steps config,
                  current_step := 0, thread_started := true }
      (true, m2)
    else
      (false, _cleanup { m1 with state := .FAILED })

/-- Method `pause_survey` (survey_manager.py lines 580-584): set the pause
flag only while `is_running`. -/
def pause_survey (m : SurveyManager) : SurveyManager :=
  if m.is_running then { m with pause_requested := true } else m

end SurveyManager

/-! ### backend/core/task_queue.py — TaskManager -/

/-- Enumeration `TaskStatus` (backend/core/task_queue.py). -/
inductive TaskStatus where
  | PENDING | RUNNING | COMPLETED | FAILED | CANCELLED
  deriving DecidableEq

/-- Enumeration `TaskType` (backend/core/task_queue.py). -/
inductive TaskType where
  | SURVEY | EXPORT | SCAN | ANALYSIS
  deriving DecidableEq

/-- Data of `TaskInfo`; timestamps are abstract instants (`ℕ`), the opaque
result payload is reduced to an optional tag. -/
structure TaskInfo where
  task_id : ℕ
  task_type : TaskType
  status : TaskStatus
  progress : ℚ
  result : Option ℕ
  error : Option String
  created_at : ℕ
  started_at : Option ℕ
  completed_at : Option ℕ
  deriving DecidableEq

/-- The `task_registry` dictionary: an association list keyed by task id. -/
def TaskRegistry : Type := List (ℕ × TaskInfo)

/-- Dictionary lookup `task_registry.get(task_id)`. -/
def lookupTask (reg : TaskRegistry) (id : ℕ) : Option TaskInfo :=
  (List.find? (fun e => e.1 == id) reg).map (·.2)

/-- Method `TaskManager.cancel` (task_queue.py lines 203-222): a missing
task gives `False`; a `PENDING` task is set to `CANCELLED` with a
completion timestamp and gives `True`; any other status gives `False` and
changes nothing. -/
def cancelTask (reg : TaskRegistry) (id : ℕ) (now : ℕ) : Bool × TaskRegistry :=
  match lookupTask reg id with
  | none => (false, reg)
  | some t =>
    if t.status = .PENDING then
      (true, reg.map (fun e =>
        if e.1 == id then
          (e.1, { t with status := .CANCELLED, completed_at := some now })
        else e))
    else (false, reg)

/-! ### backend/sdr/registry.py — DeviceRegistry -/

/-- Data of one registry entry: the open device handle, the scanner built
over it, and the reference count. Handles are identified by the uid minted
when they were created. -/
structure RegEntry where
  device : ℕ
  scanner : ℕ
  ref_count : ℕ
  deriving DecidableEq

/-- State of a `DeviceRegistry` plus the observable history needed by the
claims: `closed` records every `device.close()` performed by `release`,
and `next_uid` mints identities for freshly constructed handles. -/
structure RegState where
  entries : List (ℕ × RegEntry)
  next_uid : ℕ
  closed : List ℕ
  deriving DecidableEq

/-- Registry map lookup under the lock. -/
def lookupEntry (s : RegState) (id : ℕ) : Option RegEntry :=
  (List.find? (fun e => e.1 == id) s.entries).map (·.2)

/-- Update of the entry stored under `id`. -/
def setEntry (s : RegState) (id : ℕ) (v : RegEntry) : RegState :=
  { s with entries := s.entries.map (fun e => if e.1 == id then (e.1, v) else e) }

/-- The registry with no entries. -/
def emptyRegistry : RegState := ⟨[], 0, []⟩

/-- Method `DeviceRegistry.acquire` (registry.py lines 51-98), sequential
semantics. `db_found` abstracts the database row lookup and `open_ok` the
hardware `open()` call; both happen outside the lock. The post-lock
double-check against a racing creator is kept even though in sequential
runs the map cannot have changed. -/
def acquire (s : RegState) (id : ℕ) (db_found : Bool) (open_ok : Bool) :
    Except String (ℕ × RegState) :=
  match lookupEntry s id with
  | some e => .ok (e.scanner, setEntry s id { e with ref_count := e.ref_count + 1 })
  | none =>
    if ¬db_found then .error "Device not found in database"
    else if ¬open_ok then .error "Device failed to open"
    else
      let dev := s.next_uid
      let scan := s.next_uid + 1
      match lookupEntry s id with
      | some e =>
        -- racing creator found after re-locking: close the fresh device
        .ok (e.scanner,
          { setEntry s id { e with ref_count := e.ref_count + 1 } with
              next_uid := s.next_uid + 2, closed := s.closed ++ [dev] })
      | none =>
        .ok (scan, { entries := s.entries ++ [(id, ⟨dev, scan, 1⟩)],
                     next_uid := s.next_uid + 2, closed := s.closed })

/-- Method `DeviceRegistry.release` (registry.py lines 100-126): decrement
the reference count; at 0 remove the entry and close the device. -/
def release (s : RegState) (id : ℕ) : RegState :=
  match lookupEntry s id with
  | none => s
  | some e =>
    if e.ref_count ≤ 1 then
      { s with entries := s.entries.filter (fun x => ¬(x.1 == id)),
               closed := s.closed ++ [e.device] }
    else setEntry s id { e with ref_count := e.ref_count - 1 }

/-! ### backend/sdr — device setter contracts -/

/-- Error taxonomy of backend/sdr/base.py. -/
inductive SDRErr where
  | DeviceNotFound | DeviceConnection | FrequencyOutOfRange | SampleRate
  deriving DecidableEq

/-- Tuner state shared by all device variants. -/
structure DeviceState where
  is_open : Bool
  center_freq : ℚ
  sample_rate : ℚ
  gain : ℤ
  deriving DecidableEq

/-! ### backend/sdr/base.py — SDRDevice.get_spectrum averaging (real-valued) -/

/-- Elementwise accumulation step of the averaging loop in
`SDRDevice.get_spectrum` (base.py lines 328-341): the FIRST per-chunk dBm
spectrum is stored as is, every LATER chunk is added after conversion to
the linear domain by `10 ** (power / 10)`. -/
noncomputable def powerSumStep (acc : Option (List ℝ)) (power : List ℝ) :
    Option (List ℝ) :=
  match acc with
  | none => some power
  | some s => some (List.zipWith (fun a b => a + (10 : ℝ) ^ (b / 10)) s power)

/-- Averaged spectrum of `SDRDevice.get_spectrum` given the per-chunk dBm
spectra: run the accumulation loop over the chunks, then
`10 * log10(power_sum / num_ffts)`. Returns `none` when there is no chunk
(the source would crash there). -/
noncomputable def get_spectrum_power_avg (chunks : List (List ℝ)) :
    Option (List ℝ) :=
  (chunks.foldl powerSumStep none).map
    (fun s => s.map (fun v => 10 * Real.logb 10 (v / chunks.length)))

/-- Modelled from the spec: the mandated linear-domain averaging (convert
each chunk dBm→linear, sum, divide by the chunk count, convert back to
dBm), which base.py documents in its comments but does not implement for
the first chunk. -/
noncomputable def specLinearAverage (chunks : List (List ℝ)) :
    Option (List ℝ) :=
  match chunks with
  | [] => none
  | c :: cs =>
    let lin := (c :: cs).map (fun p => p.map (fun x => (10 : ℝ) ^ (x / 10)))
    let s := lin.foldl (fun a b => List.zipWith (· + ·) a b)
      (List.replicate c.length 0)
    some (s.map (fun v => 10 * Real.logb 10 (v / (c :: cs).length)))

/-! ### backend/sdr/scanner.py — SpectrumScanner.single_sweep -/

namespace SpectrumScanner

/-- Frequency axis of `compute_power_spectrum` and
`_compute_averaged_spectrum`: `arange(-N/2, N/2) * (sample_rate/N) +
center`. -/
def freqAxis (sample_rate : ℚ) (fft_size : ℕ) (center : ℚ) : List ℚ :=
  (List.range fft_size).map
    (fun k => ((k : ℚ) - (fft_size : ℚ) / 2) * (sample_rate / fft_size) + center)

/-- One spectrum window of a sweep step: the frequency axis paired with the
per-bin powers of that step (`pw` abstracts the dBm values that the device
samples and the Welch averaging produce; the claims about the sweep do not
depend on them). -/
def stepSpectrum (sample_rate : ℚ) (fft_size : ℕ) (center : ℚ) (pw : ℕ → ℚ) :
    List (ℚ × ℚ) :=
  (freqAxis sample_rate fft_size center).zip
    ((List.range fft_size).map pw)

/-- Method `SpectrumScanner.single_sweep` (scanner.py lines 107-201),
projected to the frequency/power pairs it accumulates. `cfg_fft` is
`self.config.fft_size`; `pw step bin` the abstracted per-bin power;
`stop_after` the number of loop iterations before `_stop_requested` is
observed set (the flag is checked at the top of every iteration). Per
step: center `start + bw/2 + i*bw` with `bw = 0.8 * sample_rate`, break
when `center - bw/2 > stop`, trim `int(0.1 * len)` bins at both ends,
filter to `[start, stop]`, append; afterwards sort everything by
frequency. -/
def single_sweep (params : ScanParameters) (cfg_fft : ℕ) (pw : ℕ → ℕ → ℚ)
    (stop_after : ℕ) : List (ℚ × ℚ) :=
  let bandwidth := params.sample_rate * (8 / 10)
  let num_steps : ℕ :=
    (⌈(params.stop_freq - params.start_freq) / bandwidth⌉).toNat
  let steps := ((List.range num_steps).take stop_after).takeWhile
    (fun (i : ℕ) =>
      decide (params.start_freq + (i : ℚ) * bandwidth ≤ params.stop_freq))
  let trim_bins := cfg_fft / 10
  let collected := (steps.map (fun (i : ℕ) =>
    let center := params.start_freq + bandwidth / 2 + (i : ℚ) * bandwidth
    let spec := stepSpectrum params.sample_rate cfg_fft center (pw i)
    (pySliceTrim trim_bins spec).filter
      (fun p => decide (params.start_freq ≤ p.1 ∧ p.1 ≤ params.stop_freq)))).flatten
  collected.insertionSort (fun a b => a.1 ≤ b.1)

end SpectrumScanner

/-! ### scipy.signal.find_peaks as called by the repository

The scanner and the signal processor both delegate their peak search to
`scipy.signal.find_peaks(power, height, distance, prominence, ...)`. The
model below follows the scipy implementation: `_local_maxima_1d` (plateau
midpoints), the height filter, `_select_by_peak_distance` (greedy removal
in decreasing priority order) and `_peak_prominences`. -/

namespace FindPeaks

/-- Number of samples the inner plateau scan of `_local_maxima_1d` steps
over: starting at `k`, how many consecutive indices below `i_max` carry
the plateau value `v`. -/
def plateauSteps (x : List ℚ) (i_max : ℕ) (v : ℚ) (k : ℕ) : ℕ :=
  if h : k < i_max ∧ x.getD k 0 = v then plateauSteps x i_max v (k + 1) + 1
  else 0
termination_by i_max - k
decreasing_by omega

/-- Plateau scan of `_local_maxima_1d`: starting at `k`, the first index
that leaves the plateau of value `v`, stopping at `i_max`. -/
def plateauEnd (x : List ℚ) (i_max : ℕ) (v : ℚ) (k : ℕ) : ℕ :=
  k + plateauSteps x i_max v k

/-- Main loop of `_local_maxima_1d`: scan `i` from 1 to `i_max - 1`; a
sample strictly above its left neighbour opens a candidate plateau whose
end is `i_ahead`; if the sample after the plateau is strictly below, emit
the plateau midpoint and resume after the plateau. -/
def localMaximaAux (x : List ℚ) (i_max : ℕ) (i : ℕ) : List ℕ :=
  if h : i < i_max then
    if x.getD (i - 1) 0 < x.getD i 0 then
      if x.getD (plateauEnd x i_max (x.getD i 0) (i + 1)) 0 < x.getD i 0 then
        ((i + (plateauEnd x i_max (x.getD i 0) (i + 1) - 1)) / 2)
          :: localMaximaAux x i_max (plateauEnd x i_max (x.getD i 0) (i + 1) + 1)
      else localMaximaAux x i_max (i + 1)
    else localMaximaAux x i_max (i + 1)
  else []
termination_by i_max - i
decreasing_by
  · simp only [plateauEnd]
    omega
  · omega
  · omega

/-- Entry point `_local_maxima_1d(x)`: scan indices 1 to `len(x) - 2`. -/
def local_maxima_1d (x : List ℚ) : List ℕ :=
  localMaximaAux x (x.length - 1) 1

/-- Height condition of `find_peaks`. The `none` threshold stands for the
NaN produced upstream by a median over an empty slice: a comparison
against NaN is false, so no peak survives. -/
def heightFilter (x : List ℚ) (height : Option ℚ) (peaks : List ℕ) :
    List ℕ :=
  match height with
  | none => []
  | some h => peaks.filter (fun p => decide (h ≤ x.getD p 0))

/-- Embedding of `np.argsort` (indices that sort `priority` ascending). -/
def argsortIdx (priority : List ℚ) : List ℕ :=
  (List.range priority.length).insertionSort
    (fun a b => priority.getD a 0 ≤ priority.getD b 0)

/-- Leftward kill loop of `_select_by_peak_distance`: starting at `k` and
walking down, clear `keep` while `peaks[j] - peaks[k] < distance`. -/
def killLeft (peaks : List ℕ) (d : ℤ) (pj : ℤ) :
    ℕ → List Bool → List Bool
  | k, keep =>
    if pj - (peaks.getD k 0 : ℤ) < d then
      match k with
      | 0 => keep.set 0 false
      | k' + 1 => killLeft peaks d pj k' (keep.set (k' + 1) false)
    else keep

/-- Rightward kill loop of `_select_by_peak_distance`: starting at `k` and
walking up below `n`, clear `keep` while `peaks[k] - peaks[j] < distance`. -/
def killRight (peaks : List ℕ) (d : ℤ) (pj : ℤ) (n : ℕ) (k : ℕ)
    (keep : List Bool) : List Bool :=
  if h : k < n ∧ (peaks.getD k 0 : ℤ) - pj < d then
    killRight peaks d pj n (k + 1) (keep.set k false)
  else keep
termination_by n - k
decreasing_by omega

/-- One iteration of the priority loop of `_select_by_peak_distance`:
skip an already-removed peak, otherwise clear every neighbour closer than
`d` on both sides. -/
def distStep (peaks : List ℕ) (d : ℤ) (keep : List Bool) (j : ℕ) :
    List Bool :=
  if keep.getD j false = false then keep
  else
    let pj : ℤ := peaks.getD j 0
    let keep1 := if j = 0 then keep else killLeft peaks d pj (j - 1) keep
    killRight peaks d pj peaks.length (j + 1) keep1

/-- Function `_select_by_peak_distance(peaks, priority, distance)`: start
with every peak kept and process positions in decreasing priority order. -/
def select_by_peak_distance (peaks : List ℕ) (priority : List ℚ) (d : ℤ) :
    List Bool :=
  ((argsortIdx priority).reverse).foldl (distStep peaks d)
    (List.replicate peaks.length true)

/-- Boolean-mask selection `peaks[keep]`. -/
def applyKeep {α : Type} (xs : List α) (keep : List Bool) : List α :=
  (xs.zip keep).filterMap (fun p => if p.2 then some p.1 else none)

/-- Leftward scan of `_peak_prominences`: walk down from `i` while the
signal stays at or below the peak value `xp`, tracking the minimum. -/
def promLeftMin (x : List ℚ) (xp : ℚ) : ℕ → ℚ → ℚ
  | i, m =>
    let m' := min m (x.getD i 0)
    match i with
    | 0 => m'
    | i' + 1 => if x.getD i' 0 ≤ xp then promLeftMin x xp i' m' else m'

/-- Rightward scan of `_peak_prominences`, bounded by `i_max`. -/
def promRightMin (x : List ℚ) (xp : ℚ) (i_max : ℕ) (i : ℕ) (m : ℚ) : ℚ :=
  let m' := min m (x.getD i 0)
  if h : i < i_max ∧ x.getD (i + 1) 0 ≤ xp then
    promRightMin x xp i_max (i + 1) m'
  else m'
termination_by i_max - i
decreasing_by omega

/-- Prominence of the peak at index `p`: peak value minus the higher of
the two base minima (`wlen` not supplied, so the bases may extend to the
array ends). -/
def prominence (x : List ℚ) (p : ℕ) : ℚ :=
  let xp := x.getD p 0
  xp - max (promLeftMin x xp p xp) (promRightMin x xp (x.length - 1) p xp)

/-- Prominence condition of `find_peaks` with a scalar lower bound. -/
def prominenceFilter (x : List ℚ) (pmin : ℚ) (peaks : List ℕ) : List ℕ :=
  peaks.filter (fun p => decide (pmin ≤ prominence x p))

/-- Function `scipy.signal.find_peaks(x, height, distance, prominence)` as
called by `SpectrumScanner.detect_peaks`: local maxima, then the height
condition, then distance pruning (priority = peak height), then the
prominence condition. -/
def find_peaks (x : List ℚ) (height : Option ℚ) (distance : ℤ)
    (pmin : ℚ) : List ℕ :=
  let peaks := local_maxima_1d x
  let peaks1 := heightFilter x height peaks
  let keep := select_by_peak_distance peaks1
    (peaks1.map (fun p => x.getD p 0)) distance
  let peaks2 := applyKeep peaks1 keep
  prominenceFilter x pmin peaks2

end FindPeaks

/-! ### backend/sdr/scanner.py — SpectrumScanner.detect_peaks -/

/-- Python `value or default` on an optional float argument: `None` and
the falsy value `0.0` both select the default. -/
def pyOr (v : Option ℚ) (default : ℚ) : ℚ :=
  match v with
  | none => default
  | some x => if x = 0 then default else x

/-- Data of `DetectedSignal` (backend/sdr/base.py). -/
structure DetectedSignal where
  frequency : ℚ
  power_dbm : ℚ
  bandwidth : ℚ
  snr_db : ℚ
  deriving DecidableEq

/-- Defaults of `ScannerConfig` relevant to peak detection
(scanner.py lines 23-31). -/
structure ScannerConfig where
  peak_threshold_db : ℚ := 10
  min_peak_distance_hz : ℚ := 100e3
  deriving DecidableEq

namespace SpectrumScanner

/-- Leftward walk of `_estimate_bandwidth`: decrement while the index is
positive and the power stays strictly above the threshold. -/
def bwLeft (power : List ℚ) (th : ℚ) : ℕ → ℕ
  | 0 => 0
  | i + 1 => if th < power.getD (i + 1) 0 then bwLeft power th i else i + 1

/-- Rightward walk of `_estimate_bandwidth`: increment while below the
last index and the power stays strictly above the threshold. -/
def bwRight (power : List ℚ) (th : ℚ) (n : ℕ) (i : ℕ) : ℕ :=
  if h : i < n - 1 ∧ th < power.getD i 0 then bwRight power th n (i + 1)
  else i
termination_by n - i
decreasing_by omega

/-- Method `SpectrumScanner._estimate_bandwidth` (scanner.py lines
333-378): walk outward from the peak to the first samples at or below
`peak - 3 dB`, take the frequency span, floored at one bin width. -/
def _estimate_bandwidth (frequencies power_dbm : List ℚ) (peak_idx : ℕ) :
    ℚ :=
  let th := power_dbm.getD peak_idx 0 - 3
  let lower_idx := bwLeft power_dbm th peak_idx
  let upper_idx := bwRight power_dbm th power_dbm.length peak_idx
  let bandwidth := |frequencies.getD upper_idx 0 - frequencies.getD lower_idx 0|
  let min_bandwidth :=
    if 1 < frequencies.length then
      |frequencies.getD 1 0 - frequencies.getD 0 0|
    else 1000
  max bandwidth min_bandwidth

/-- Method `SpectrumScanner.detect_peaks` (scanner.py lines 269-332):
noise floor = median of the lowest 30% of the powers (NaN when that slice
is empty, modelled as `none`), detection threshold = noise floor plus the
dB threshold, a minimum peak distance in bins obtained by integer
truncation of `min_distance_hz / freq_step` (floored at 1), then
`scipy.signal.find_peaks` with a 3 dB prominence requirement. -/
def detect_peaks (cfg : ScannerConfig) (frequencies power_dbm : List ℚ)
    (threshold_db min_distance_hz : Option ℚ) : List DetectedSignal :=
  if frequencies.length = 0 then []
  else
    let threshold_db := pyOr threshold_db cfg.peak_threshold_db
    let min_distance_hz := pyOr min_distance_hz cfg.min_peak_distance_hz
    let sorted_power := npSort power_dbm
    let cut := power_dbm.length * 3 / 10
    let noise_floor : Option ℚ :=
      if cut = 0 then none else some (npMedian (sorted_power.take cut))
    let height : Option ℚ := noise_floor.map (fun nf => nf + threshold_db)
    let freq_step : ℚ :=
      if 1 < frequencies.length then
        (frequencies.getD (frequencies.length - 1) 0 - frequencies.getD 0 0) /
          ((frequencies.length : ℚ) - 1)
      else 1
    let min_distance_bins : ℤ := max 1 (pyInt (min_distance_hz / freq_step))
    let peaks := FindPeaks.find_peaks power_dbm height min_distance_bins 3
    peaks.map (fun p =>
      { frequency := frequencies.getD p 0
        power_dbm := power_dbm.getD p 0
        bandwidth := _estimate_bandwidth frequencies power_dbm p
        snr_db := power_dbm.getD p 0 - noise_floor.getD 0 })

end SpectrumScanner

/-! ### backend/core/signal_processor.py — SignalProcessor -/

namespace FindPeaks

/-- Leftward scan of `_peak_prominences` also tracking the index of the
minimum (the left base), as needed by `_peak_widths`. -/
def promLeftScan (x : List ℚ) (xp : ℚ) : ℕ → ℚ → ℕ → ℚ × ℕ
  | i, m, b =>
    let mb := if x.getD i 0 < m then (x.getD i 0, i) else (m, b)
    match i with
    | 0 => mb
    | i' + 1 =>
      if x.getD i' 0 ≤ xp then promLeftScan x xp i' mb.1 mb.2 else mb

/-- Rightward scan of `_peak_prominences` also tracking the right base. -/
def promRightScan (x : List ℚ) (xp : ℚ) (i_max : ℕ) (i : ℕ) (m : ℚ)
    (b : ℕ) : ℚ × ℕ :=
  let mb := if x.getD i 0 < m then (x.getD i 0, i) else (m, b)
  if h : i < i_max ∧ x.getD (i + 1) 0 ≤ xp then
    promRightScan x xp i_max (i + 1) mb.1 mb.2
  else mb
termination_by i_max - i
decreasing_by omega

/-- Prominence and bases of the peak at `p`, as `_peak_prominences`
returns them: `(prominence, left_base, right_base)`. -/
def prominenceData (x : List ℚ) (p : ℕ) : ℚ × ℕ × ℕ :=
  let xp := x.getD p 0
  let lft := promLeftScan x xp p xp p
  let rgt := promRightScan x xp (x.length - 1) p xp p
  (xp - max lft.1 rgt.1, lft.2, rgt.2)

/-- Leftward walk of `_peak_widths` toward the evaluation height. -/
def widthLeftWalk (x : List ℚ) (height : ℚ) (i_min : ℕ) : ℕ → ℕ
  | 0 => 0
  | i + 1 =>
    if i_min < i + 1 ∧ height < x.getD (i + 1) 0 then
      widthLeftWalk x height i_min i
    else i + 1

/-- Rightward walk of `_peak_widths` toward the evaluation height. -/
def widthRightWalk (x : List ℚ) (height : ℚ) (i_max : ℕ) (i : ℕ) : ℕ :=
  if h : i < i_max ∧ height < x.getD i 0 then
    widthRightWalk x height i_max (i + 1)
  else i
termination_by i_max - i
decreasing_by omega

/-- Width of the peak at `p` as computed by `_peak_widths` at
`rel_height = 0.5`: walk from the peak toward each base until the signal
drops to `x[peak] - prominence/2`, with linear interpolation of the
crossing position. -/
def peakWidth (x : List ℚ) (p : ℕ) : ℚ :=
  let pd := prominenceData x p
  let height := x.getD p 0 - pd.1 * (1 / 2)
  let li := widthLeftWalk x height pd.2.1 p
  let left_ip : ℚ :=
    if x.getD li 0 < height then
      (li : ℚ) + (height - x.getD (li + 1) 0) /
        (x.getD li 0 - x.getD (li + 1) 0)
    else (li : ℚ)
  let ri := widthRightWalk x height pd.2.2 p
  let right_ip : ℚ :=
    if x.getD ri 0 < height then
      (ri : ℚ) - (height - x.getD (ri - 1) 0) /
        (x.getD ri 0 - x.getD (ri - 1) 0)
    else (ri : ℚ)
  right_ip - left_ip

/-- Function `scipy.signal.find_peaks(x, height, distance, prominence,
width)` as called by `SignalProcessor.detect_peaks`: like the scanner
variant plus the width condition evaluated after the prominence one. -/
def find_peaks_w (x : List ℚ) (height : Option ℚ) (distance : ℤ)
    (pmin : ℚ) (wmin : ℚ) : List ℕ :=
  let peaks := local_maxima_1d x
  let peaks1 := heightFilter x height peaks
  let keep := select_by_peak_distance peaks1
    (peaks1.map (fun p => x.getD p 0)) distance
  let peaks2 := applyKeep peaks1 keep
  let peaks3 := prominenceFilter x pmin peaks2
  peaks3.filter (fun p => decide (wmin ≤ peakWidth x p))

end FindPeaks

/-- Data of `SignalPeak` (backend/core/signal_processor.py). -/
structure SignalPeak where
  frequency : ℚ
  power_dbm : ℚ
  bandwidth : ℚ
  snr_db : ℚ
  prominence : ℚ
  left_freq : ℚ
  right_freq : ℚ
  deriving DecidableEq

namespace SignalProcessor

/-- Constructor defaults of `SignalProcessor`. -/
structure Config where
  peak_threshold_db : ℚ := 10
  min_peak_distance_hz : ℚ := 50000
  noise_percentile : ℚ := 10
  deriving DecidableEq

/-- Embedding of `np.percentile` with the default linear interpolation:
position `(q/100)·(n-1)` between the order statistics. -/
def npPercentile (xs : List ℚ) (q : ℚ) : ℚ :=
  let s := npSort xs
  let pos := (q / 100) * ((xs.length : ℚ) - 1)
  let k : ℤ := ⌊pos⌋
  let frac := pos - k
  let lo := s.getD k.toNat 0
  let hi := s.getD (k.toNat + 1) 0
  lo + frac * (hi - lo)

/-- Method `SignalProcessor.estimate_noise_floor` on the default
`percentile` path (signal_processor.py lines 74-95), which is the method
`detect_peaks` uses: `-100` for an empty array, otherwise the configured
percentile of the powers. -/
def estimate_noise_floor (cfg : Config) (power_dbm : List ℚ) : ℚ :=
  if power_dbm.length = 0 then -100
  else npPercentile power_dbm cfg.noise_percentile

/-- Leftward walk of `SignalProcessor._find_bandwidth_edges`. -/
def edgeLeft (power : List ℚ) (th : ℚ) : ℕ → ℕ
  | 0 => 0
  | i + 1 => if th < power.getD (i + 1) 0 then edgeLeft power th i else i + 1

/-- Rightward walk of `SignalProcessor._find_bandwidth_edges`. -/
def edgeRight (power : List ℚ) (th : ℚ) (n : ℕ) (i : ℕ) : ℕ :=
  if h : i < n - 1 ∧ th < power.getD i 0 then edgeRight power th n (i + 1)
  else i
termination_by n - i
decreasing_by omega

/-- Method `SignalProcessor._find_bandwidth_edges` (signal_processor.py
lines 179-211): indices of the first samples at or below
`peak - db_down` on each side. -/
def _find_bandwidth_edges (power_dbm : List ℚ) (peak_idx : ℕ) : ℕ × ℕ :=
  let th := power_dbm.getD peak_idx 0 - 3
  (edgeLeft power_dbm th peak_idx,
   edgeRight power_dbm th power_dbm.length peak_idx)

/-- Method `SignalProcessor.detect_peaks` (signal_processor.py lines
108-177): arrays with fewer than 3 frequency samples short-circuit to the
empty list; otherwise noise floor by percentile, threshold resolution via
Python `or`, bin distance by integer truncation, and
`scipy.signal.find_peaks` with height, distance, prominence and
`width = 1`. -/
def detect_peaks (cfg : Config) (frequencies power_dbm : List ℚ)
    (threshold_db min_distance_hz : Option ℚ) (min_prominence : ℚ) :
    List SignalPeak :=
  if frequencies.length < 3 then []
  else
    let threshold_db := pyOr threshold_db cfg.peak_threshold_db
    let min_distance_hz := pyOr min_distance_hz cfg.min_peak_distance_hz
    let noise_floor := estimate_noise_floor cfg power_dbm
    let detection_threshold := noise_floor + threshold_db
    let freq_step :=
      (frequencies.getD (frequencies.length - 1) 0 - frequencies.getD 0 0) /
        ((frequencies.length : ℚ) - 1)
    let min_distance_bins : ℤ := max 1 (pyInt (min_distance_hz / freq_step))
    let peaks := FindPeaks.find_peaks_w power_dbm (some detection_threshold)
      min_distance_bins min_prominence 1
    peaks.map (fun p =>
      let edges := _find_bandwidth_edges power_dbm p
      let left_freq := frequencies.getD edges.1 0
      let right_freq := frequencies.getD edges.2 0
      { frequency := frequencies.getD p 0
        power_dbm := power_dbm.getD p 0
        bandwidth := right_freq - left_freq
        snr_db := power_dbm.getD p 0 - noise_floor
        prominence := (FindPeaks.prominenceData power_dbm p).1
        left_freq := left_freq
        right_freq := right_freq })

end SignalProcessor

namespace RTLSDRDevice

def MIN_FREQ : ℚ := 24e6
def MAX_FREQ : ℚ := 1766e6

/-- Method `RTLSDRDevice.set_center_freq` (rtlsdr.py lines 112-130):
closed device raises `DeviceConnectionError`; an out-of-range frequency
raises `FrequencyOutOfRangeError`; otherwise the hardware call either
succeeds (`hw_ok`) or is swallowed into a `False` return. -/
def set_center_freq (s : DeviceState) (hw_ok : Bool) (freq : ℚ) :
    Except SDRErr (Bool × DeviceState) :=
  if ¬s.is_open then .error .DeviceConnection
  else if freq < MIN_FREQ ∨ freq > MAX_FREQ then .error .FrequencyOutOfRange
  else if hw_ok then .ok (true, { s with center_freq := freq })
  else .ok (false, s)

/-- Method `RTLSDRDevice.set_sample_rate` (rtlsdr.py lines 132-150), with
the hard-coded supported band 225 kHz - 3.2 MHz. -/
def set_sample_rate (s : DeviceState) (hw_ok : Bool) (rate : ℚ) :
    Except SDRErr (Bool × DeviceState) :=
  if ¬s.is_open then .error .DeviceConnection
  else if rate < 225e3 ∨ rate > 3.2e6 then .error .SampleRate
  else if hw_ok then .ok (true, { s with sample_rate := rate })
  else .ok (false, s)

end RTLSDRDevice

namespace HackRFDevice

def MIN_FREQ : ℚ := 1e6
def MAX_FREQ : ℚ := 6000e6

/-- Method `HackRFDevice.set_center_freq` (hackrf.py lines 125-143). -/
def set_center_freq (s : DeviceState) (hw_ok : Bool) (freq : ℚ) :
    Except SDRErr (Bool × DeviceState) :=
  if ¬s.is_open then .error .DeviceConnection
  else if freq < MIN_FREQ ∨ freq > MAX_FREQ then .error .FrequencyOutOfRange
  else if hw_ok then .ok (true, { s with center_freq := freq })
  else .ok (false, s)

/-- Method `HackRFDevice.set_sample_rate` (hackrf.py lines 145-163), with
the hard-coded supported band 2 MHz - 20 MHz. -/
def set_sample_rate (s : DeviceState) (hw_ok : Bool) (rate : ℚ) :
    Except SDRErr (Bool × DeviceState) :=
  if ¬s.is_open then .error .DeviceConnection
  else if rate < 2e6 ∨ rate > 20e6 then .error .SampleRate
  else if hw_ok then .ok (true, { s with sample_rate := rate })
  else .ok (false, s)

end HackRFDevice

namespace MockSDRDevice

def MIN_FREQ : ℚ := 1e6
def MAX_FREQ : ℚ := 6000e6

/-- Method `MockSDRDevice.set_center_freq` (mock.py lines 146-154): only
the open check is performed; the frequency is stored unconditionally, with
no comparison against `MIN_FREQ`/`MAX_FREQ`. -/
def set_center_freq (s : DeviceState) (freq : ℚ) :
    Except SDRErr (Bool × DeviceState) :=
  if ¬s.is_open then .error .DeviceConnection
  else .ok (true, { s with center_freq := freq })

/-- Method `MockSDRDevice.set_sample_rate` (mock.py lines 156-163): only
the open check is performed; the rate is stored unconditionally, with no
comparison against `SUPPORTED_SAMPLE_RATES`. -/
def set_sample_rate (s : DeviceState) (rate : ℚ) :
    Except SDRErr (Bool × DeviceState) :=
  if ¬s.is_open then .error .DeviceConnection
  else .ok (true, { s with sample_rate := rate })

end MockSDRDevice

/-! ### Concrete sample values used by witness theorems -/

/-- Transitivity of the by-frequency comparison used to sort sweep
output. -/
instance : IsTrans (ℚ × ℚ) (fun a b => a.1 ≤ b.1) :=
  ⟨fun _ _ _ => le_trans⟩

/-- Totality of the by-frequency comparison used to sort sweep output. -/
instance : IsTotal (ℚ × ℚ) (fun a b => a.1 ≤ b.1) :=
  ⟨fun a b => le_total a.1 b.1⟩

/-- Sample survey configuration used to exercise the manager methods. -/
def sampleConfig : SurveyConfig :=
  ⟨1, 1, 88e6, 108e6, 2.4e6, 20, 200000, 1 / 10, .FIXED, true, 10, true, []⟩

/-- Sample manager mid-scan. -/
def scanningManager : SurveyManager :=
  ⟨.SCANNING, some sampleConfig, 0, false, false, 0, 0, 0, 0, 25, true, true,
   true, true⟩

/-- Sample manager mid-relocation of a multi-location survey, with no
pause requested. -/
def movingManager : SurveyManager :=
  ⟨.MOVING, some sampleConfig, 0, false, false, 0, 0, 0, 0, 25, true, true,
   true, true⟩

/-- Sample manager at rest. -/
def idleManager : SurveyManager :=
  ⟨.IDLE, none, 0, false, false, 0, 0, 0, 0, 0, false, false, false, false⟩

/-- Sample pending task. -/
def pendingTask : TaskInfo :=
  ⟨1, .SURVEY, .PENDING, 0, none, none, 3, none, none⟩

/-- Sample running task. -/
def runningTask : TaskInfo :=
  ⟨2, .EXPORT, .RUNNING, 50, none, none, 3, some 4, none⟩

end SDRScan

/-! ## Theorems settling the claims -/

namespace SDRScan

/-- C7 counterexample: `ScanParameters` construction with
`start_freq = 0` succeeds, although 0 is not a positive frequency; the
claimed equivalence (success iff both frequencies positive, among the
other conditions) is false at this input. -/
theorem C7_counterexample :
    (mkScanParameters 0 1 10000 1 20 1 1024).toOption.isSome = true
      ∧ ¬ (0 < (0 : ℚ)) := by
  constructor
  · rfl
  · exact lt_irrefl 0

/-- C7 (amended): construction of `ScanParameters` succeeds iff
`start_freq < stop_freq`, `start_freq ≥ 0` (zero is accepted),
`sample_rate > 0` and `integration_time > 0`; `stop_freq > 0` then
follows, and no separate strict positivity of `start_freq` is enforced. -/
theorem C7_mkScanParameters_ok_iff (start stop bin rate : ℚ) (gain : ℤ)
    (integ : ℚ) (fft : ℕ) :
    (mkScanParameters start stop bin rate gain integ fft).toOption.isSome = true
      ↔ (start < stop ∧ 0 ≤ start ∧ 0 < rate ∧ 0 < integ) := by
  unfold mkScanParameters
  split_ifs with h1 h2 h3 h4 <;>
    simp only [Except.toOption, Option.isSome_some, Option.isSome_none]
  · exact ⟨fun h => Bool.noConfusion h,
      fun h => absurd h.1 (not_lt.mpr h1)⟩
  · exact ⟨fun h => Bool.noConfusion h,
      fun h => absurd h2 (not_lt.mpr h.2.1)⟩
  · exact ⟨fun h => Bool.noConfusion h,
      fun h => absurd h.2.2.1 (not_lt.mpr h3)⟩
  · exact ⟨fun h => Bool.noConfusion h,
      fun h => absurd h.2.2.2 (not_lt.mpr h4)⟩
  · exact ⟨fun _ => ⟨not_le.mp h1, not_lt.mp h2, not_le.mp h3, not_le.mp h4⟩,
      fun _ => trivial⟩

/-- C9: `TaskManager.cancel` returns `True` and marks the task
`CANCELLED` with a completion timestamp exactly when the task exists with
status `PENDING`; in every other case it returns `False` and leaves the
registry unchanged, and it never touches entries under other ids. -/
theorem C9_cancel_spec (reg : TaskRegistry) (id now : ℕ) :
    ((cancelTask reg id now).1 = true
        ↔ ∃ t, lookupTask reg id = some t ∧ t.status = .PENDING)
    ∧ ((cancelTask reg id now).1 = false → (cancelTask reg id now).2 = reg)
    ∧ ((cancelTask reg id now).1 = true →
        lookupTask (cancelTask reg id now).2 id =
          (lookupTask reg id).map (fun t =>
            { t with status := .CANCELLED, completed_at := some now }))
    ∧ ∀ j, j ≠ id →
        lookupTask (cancelTask reg id now).2 j = lookupTask reg j := by
  have hfind : ∀ (v : TaskInfo) (j : ℕ),
      lookupTask (reg.map (fun e => if e.1 == id then (e.1, v) else e)) j
        = ((List.find? (fun e => e.1 == j) reg).map
            (fun e => if e.1 == id then (e.1, v) else e)).map (·.2) := by
    intro v j
    unfold lookupTask
    rw [List.find?_map]
    have hp : ((fun e : ℕ × TaskInfo => e.1 == j) ∘
        (fun e => if e.1 == id then (e.1, v) else e))
        = (fun e : ℕ × TaskInfo => e.1 == j) := by
      funext e
      by_cases he : e.1 = id <;> simp [Function.comp, he]
    rw [hp]
  cases h : lookupTask reg id with
  | none =>
    refine ⟨by simp [cancelTask, h], by simp [cancelTask, h],
      by simp [cancelTask, h], ?_⟩
    intro j _
    simp only [cancelTask, h]
  | some t =>
    by_cases hp : t.status = .PENDING
    · obtain ⟨e, he1, he2⟩ : ∃ e, List.find? (fun e => e.1 == id) reg = some e
          ∧ e.2 = t := by
        unfold lookupTask at h
        cases hf : List.find? (fun e => e.1 == id) reg with
        | none => rw [hf] at h; cases h
        | some e => rw [hf] at h; exact ⟨e, rfl, by cases h; rfl⟩
      have hkey : e.1 = id := by
        have := List.find?_some he1
        simpa using this
      refine ⟨?_, ?_, ?_, ?_⟩
      · simp only [cancelTask, h]
        rw [if_pos hp]
        exact ⟨fun _ => ⟨t, rfl, hp⟩, fun _ => rfl⟩
      · simp only [cancelTask, h]
        rw [if_pos hp]
        intro hc
        exact absurd hc (by simp)
      · intro _
        simp only [cancelTask, h]
        rw [if_pos hp]
        rw [hfind, he1]
        simp [hkey]
      · intro j hj
        simp only [cancelTask, h]
        rw [if_pos hp, hfind]
        unfold lookupTask
        cases hf : List.find? (fun e => e.1 == j) reg with
        | none => rfl
        | some e2 =>
          have hkey2 : e2.1 = j := by
            have := List.find?_some hf
            simpa using this
          have hne : e2.1 ≠ id := by rw [hkey2]; exact hj
          simp [hne]
    · refine ⟨?_, ?_, ?_, ?_⟩
      · simp only [cancelTask, h]
        rw [if_neg hp]
        constructor
        · intro hc; exact absurd hc (by simp)
        · rintro ⟨t2, ht2, hs2⟩
          cases ht2
          exact absurd hs2 hp
      · simp only [cancelTask, h]
        rw [if_neg hp]
        intro _
        rfl
      · simp only [cancelTask, h]
        rw [if_neg hp]
        intro hc
        exact absurd hc (by simp)
      · intro j _
        simp only [cancelTask, h]
        rw [if_neg hp]

/-- C9 witness: cancelling a concrete pending task succeeds, and
cancelling a concrete running task leaves the registry unchanged. -/
theorem C9_cancel_spec_witness :
    (cancelTask [(1, pendingTask)] 1 7).1 = true
    ∧ (cancelTask [(2, runningTask)] 2 7).2 = [(2, runningTask)] :=
  ⟨(C9_cancel_spec [(1, pendingTask)] 1 7).1.mpr ⟨pendingTask, rfl, rfl⟩,
   (C9_cancel_spec [(2, runningTask)] 2 7).2.1 rfl⟩

/-- C4: from an empty registry, two `acquire` calls for the same id
return the same scanner (uid 1) and leave the reference count at 2; the
first `release` only decrements, the second removes the entry and closes
the underlying device (uid 0) exactly once. The second acquire takes the
cached path, so its database and open outcomes are irrelevant. -/
theorem C4_registry_refcount (id : ℕ) (db2 open2 : Bool) :
    acquire emptyRegistry id true true
        = .ok (1, ⟨[(id, ⟨0, 1, 1⟩)], 2, []⟩)
    ∧ acquire ⟨[(id, ⟨0, 1, 1⟩)], 2, []⟩ id db2 open2
        = .ok (1, ⟨[(id, ⟨0, 1, 2⟩)], 2, []⟩)
    ∧ release ⟨[(id, ⟨0, 1, 2⟩)], 2, []⟩ id = ⟨[(id, ⟨0, 1, 1⟩)], 2, []⟩
    ∧ release ⟨[(id, ⟨0, 1, 1⟩)], 2, []⟩ id = ⟨[], 2, [0]⟩ := by
  refine ⟨rfl, ?_, ?_, ?_⟩ <;>
    simp [acquire, release, lookupEntry, setEntry, List.find?]

/-- C5: while the manager is running a survey (its `is_running` states:
`INITIALIZING`, `SCANNING`, `MOVING` — in particular `SCANNING`),
`start_survey` returns failure and leaves every manager field unchanged,
whatever the configuration and whatever the setup would have done. -/
theorem C5_start_survey_guard (m : SurveyManager) (config : SurveyConfig)
    (now : ℚ) (setup_ok : Bool) (h : m.is_running = true) :
    SurveyManager.start_survey m config now setup_ok = (false, m) := by
  unfold SurveyManager.start_survey
  rw [h]
  rfl

/-- C5 witness: a manager in state `SCANNING` rejects a new survey with
no side effects. -/
theorem C5_start_survey_guard_witness :
    scanningManager.is_running = true
    ∧ SurveyManager.start_survey scanningManager sampleConfig 5 true
        = (false, scanningManager) :=
  ⟨by decide, C5_start_survey_guard scanningManager sampleConfig 5 true
    (by decide)⟩

/-- C8 counterexample: in state `MOVING` (which is not `SCANNING`),
`pause_survey` is not a no-op — it flips the pause flag, because the
guard in the source is `is_running`, which also covers `MOVING` and
`INITIALIZING`. -/
theorem C8_counterexample :
    movingManager.state ≠ .SCANNING
    ∧ SurveyManager.pause_survey movingManager ≠ movingManager := by
  constructor
  · decide
  · intro h
    have := congrArg SurveyManager.pause_requested h
    simp [SurveyManager.pause_survey, SurveyManager.is_running,
      movingManager, sampleConfig] at this

/-- C8 (amended): `pause_survey` is a no-op exactly outside the
`is_running` states, that is whenever the state is none of
`INITIALIZING`, `SCANNING`, `MOVING`; it then leaves every field of the
manager unchanged. -/
theorem C8_pause_noop (m : SurveyManager) (h : m.is_running = false) :
    SurveyManager.pause_survey m = m := by
  unfold SurveyManager.pause_survey
  rw [h]
  rfl

/-- C8 witness: pausing an idle manager changes nothing. -/
theorem C8_pause_noop_witness :
    idleManager.is_running = false
    ∧ SurveyManager.pause_survey idleManager = idleManager :=
  ⟨by decide, C8_pause_noop idleManager (by decide)⟩

/-- C6 counterexample: the mock variant accepts a center frequency below
its own declared minimum (0.5 MHz < 1 MHz) and stores it, returning
success instead of raising `FrequencyOutOfRangeError`. -/
theorem C6_counterexample :
    MockSDRDevice.set_center_freq ⟨true, 100e6, 2.4e6, 20⟩ 500000
        = .ok (true, ⟨true, 500000, 2.4e6, 20⟩)
    ∧ (500000 : ℚ) < MockSDRDevice.MIN_FREQ := by
  constructor
  · rfl
  · norm_num [MockSDRDevice.MIN_FREQ]

/-- C6 (amended): the RTL-SDR and HackRF variants reject out-of-range
center frequencies and sample rates on an open device with
`FrequencyOutOfRangeError` and `SampleRateError` respectively (never
clamping), while the mock variant performs no range validation at all
and stores whatever value it is given. -/
theorem C6_setter_validation :
    (∀ (s : DeviceState) (hw : Bool) (f : ℚ), s.is_open = true →
      (f < RTLSDRDevice.MIN_FREQ ∨ f > RTLSDRDevice.MAX_FREQ) →
      RTLSDRDevice.set_center_freq s hw f = .error .FrequencyOutOfRange)
    ∧ (∀ (s : DeviceState) (hw : Bool) (r : ℚ), s.is_open = true →
      (r < 225e3 ∨ r > 3.2e6) →
      RTLSDRDevice.set_sample_rate s hw r = .error .SampleRate)
    ∧ (∀ (s : DeviceState) (hw : Bool) (f : ℚ), s.is_open = true →
      (f < HackRFDevice.MIN_FREQ ∨ f > HackRFDevice.MAX_FREQ) →
      HackRFDevice.set_center_freq s hw f = .error .FrequencyOutOfRange)
    ∧ (∀ (s : DeviceState) (hw : Bool) (r : ℚ), s.is_open = true →
      (r < 2e6 ∨ r > 20e6) →
      HackRFDevice.set_sample_rate s hw r = .error .SampleRate)
    ∧ (∀ (s : DeviceState) (f : ℚ), s.is_open = true →
      MockSDRDevice.set_center_freq s f
        = .ok (true, { s with center_freq := f }))
    ∧ (∀ (s : DeviceState) (r : ℚ), s.is_open = true →
      MockSDRDevice.set_sample_rate s r
        = .ok (true, { s with sample_rate := r })) := by
  refine ⟨?_, ?_, ?_, ?_, ?_, ?_⟩ <;> intro s
  · intro hw f ho hr
    unfold RTLSDRDevice.set_center_freq
    rw [ho]
    simp [hr]
  · intro hw r ho hr
    unfold RTLSDRDevice.set_sample_rate
    rw [ho]
    simp [hr]
  · intro hw f ho hr
    unfold HackRFDevice.set_center_freq
    rw [ho]
    simp [hr]
  · intro hw r ho hr
    unfold HackRFDevice.set_sample_rate
    rw [ho]
    simp [hr]
  · intro f ho
    unfold MockSDRDevice.set_center_freq
    rw [ho]
    rfl
  · intro r ho
    unfold MockSDRDevice.set_sample_rate
    rw [ho]
    rfl

/-- C6 witness: an open RTL-SDR device rejects 10 MHz (below its 24 MHz
minimum) with `FrequencyOutOfRangeError`. -/
theorem C6_setter_validation_witness :
    RTLSDRDevice.set_center_freq ⟨true, 100e6, 2.4e6, 20⟩ true 10e6
        = .error .FrequencyOutOfRange :=
  C6_setter_validation.1 ⟨true, 100e6, 2.4e6, 20⟩ true 10e6 rfl
    (Or.inl (by norm_num [RTLSDRDevice.MIN_FREQ]))

/-- C10: `SignalProcessor.detect_peaks` returns the empty list for every
input whose frequency array has fewer than 3 samples, independent of the
power array and of all threshold, distance and prominence parameters. -/
theorem C10_detect_peaks_short_input (cfg : SignalProcessor.Config)
    (frequencies power_dbm : List ℚ) (threshold_db min_distance_hz : Option ℚ)
    (min_prominence : ℚ) (h : frequencies.length < 3) :
    SignalProcessor.detect_peaks cfg frequencies power_dbm threshold_db
      min_distance_hz min_prominence = [] := by
  unfold SignalProcessor.detect_peaks
  rw [if_pos h]

/-- C10 witness: a two-sample frequency array yields no peaks even with a
longer power array and default parameters. -/
theorem C10_detect_peaks_short_input_witness :
    [(1 : ℚ), 2].length < 3
    ∧ SignalProcessor.detect_peaks {} [(1 : ℚ), 2] [5, 6, 7] none none 3
        = [] :=
  ⟨by decide, C10_detect_peaks_short_input {} [(1 : ℚ), 2] [5, 6, 7] none
    none 3 (by decide)⟩

/-- Sorting pairs by first component yields a list that is pairwise
nondecreasing in the first component. -/
theorem insertionSort_fst_pairwise (l : List (ℚ × ℚ)) :
    List.Pairwise (fun a b : ℚ × ℚ => a.1 ≤ b.1)
      (l.insertionSort (fun a b => a.1 ≤ b.1)) :=
  List.sorted_insertionSort _ l

/-- C2: for every valid scan range (`start < stop`, positive rate,
nonnegative start, positive integration time), every per-step power
assignment and every point at which the stop flag interrupts the loop,
the frequency/power pairs returned by `single_sweep` are monotonically
nondecreasing in frequency and every frequency lies within
`[start_freq, stop_freq]`. -/
theorem C2_single_sweep_monotone_in_range (params : ScanParameters)
    (cfg_fft : ℕ) (pw : ℕ → ℕ → ℚ) (stop_after : ℕ)
    (h1 : params.start_freq < params.stop_freq)
    (h2 : 0 < params.sample_rate) (h3 : 0 ≤ params.start_freq)
    (h4 : 0 < params.integration_time) :
    List.Pairwise (fun a b : ℚ × ℚ => a.1 ≤ b.1)
        (SpectrumScanner.single_sweep params cfg_fft pw stop_after)
    ∧ ∀ p ∈ SpectrumScanner.single_sweep params cfg_fft pw stop_after,
        params.start_freq ≤ p.1 ∧ p.1 ≤ params.stop_freq := by
  constructor
  · exact insertionSort_fst_pairwise _
  · intro p hp
    unfold SpectrumScanner.single_sweep at hp
    rw [List.Perm.mem_iff (List.perm_insertionSort _ _)] at hp
    simp only [List.mem_flatten, List.mem_map] at hp
    obtain ⟨l, ⟨i, hi, rfl⟩, hpl⟩ := hp
    have hmem := List.mem_filter.mp hpl
    simpa using hmem.2

/-- C2 witness: a concrete sweep from 10 Hz to 30 Hz at rate 10 with a
10-bin FFT is sorted and stays inside the requested range. -/
theorem C2_single_sweep_monotone_in_range_witness :
    (10 : ℚ) < 30 ∧ (0 : ℚ) < 10 ∧ (0 : ℚ) ≤ 10 ∧ (0 : ℚ) < 1
    ∧ (List.Pairwise (fun a b : ℚ × ℚ => a.1 ≤ b.1)
        (SpectrumScanner.single_sweep ⟨10, 30, 10000, 10, 20, 1, 1024⟩ 10
          (fun _ _ => -50) 5)
      ∧ ∀ p ∈ SpectrumScanner.single_sweep ⟨10, 30, 10000, 10, 20, 1, 1024⟩
          10 (fun _ _ => -50) 5, (10 : ℚ) ≤ p.1 ∧ p.1 ≤ 30) :=
  ⟨by norm_num, by norm_num, by norm_num, by norm_num,
   C2_single_sweep_monotone_in_range ⟨10, 30, 10000, 10, 20, 1, 1024⟩ 10
     (fun _ _ => -50) 5 (by norm_num) (by norm_num) (by norm_num)
     (by norm_num)⟩

/-- C1: the averaging loop of `get_spectrum` does not accumulate in the
linear power domain — the first chunk is accumulated as raw dBm while
later chunks are converted; at the failing input of two identical chunks
with a single 0 dBm bin the code yields `10·log10(1/2) ≈ −3.01 dBm`
instead of the 0 dBm that linear-domain averaging of identical spectra
must return. -/
theorem C1_mixed_domain_accumulation :
    get_spectrum_power_avg [[0], [0]] = some [10 * Real.logb 10 (1 / 2)]
    ∧ 10 * Real.logb 10 ((1 : ℝ) / 2) < 0
    ∧ get_spectrum_power_avg [[0], [0]] ≠ some [(0 : ℝ)] := by
  have heval : get_spectrum_power_avg [[0], [0]]
      = some [10 * Real.logb 10 (1 / 2)] := by
    unfold get_spectrum_power_avg powerSumStep
    norm_num [Real.rpow_zero]
  have hneg : 10 * Real.logb 10 ((1 : ℝ) / 2) < 0 := by
    have : Real.logb 10 ((1 : ℝ) / 2) < 0 :=
      Real.logb_neg (by norm_num) (by norm_num) (by norm_num)
    linarith
  refine ⟨heval, hneg, ?_⟩
  rw [heval]
  intro hcontra
  have : 10 * Real.logb 10 ((1 : ℝ) / 2) = 0 := by
    simpa using hcontra
  linarith

/-! ### Lemmas on the find_peaks model, leading to the C3 theorems -/

namespace FindPeaks

theorem getD_set_false_true :
    ∀ (keep : List Bool) (k q : ℕ),
      ((keep.set k false).getD q false) = true → keep.getD q false = true
  | [], _, _ => by simp [List.set]
  | b :: bs, 0, 0 => by simp
  | b :: bs, 0, q + 1 => by simp
  | b :: bs, k + 1, 0 => by simp
  | b :: bs, k + 1, q + 1 => by
    simpa using getD_set_false_true bs k q

theorem getD_set_false_self :
    ∀ (keep : List Bool) (k : ℕ), k < keep.length →
      (keep.set k false).getD k false = false
  | [], _, h => by simp at h
  | b :: bs, 0, _ => by simp
  | b :: bs, k + 1, h => by
    simpa using getD_set_false_self bs k (by simpa using h)

theorem killLeft_length (peaks : List ℕ) (d pj : ℤ) :
    ∀ (k : ℕ) (keep : List Bool),
      (killLeft peaks d pj k keep).length = keep.length
  | 0, keep => by
    unfold killLeft
    split <;> simp
  | k + 1, keep => by
    unfold killLeft
    split
    · rw [killLeft_length peaks d pj k]
      simp
    · rfl

theorem killRight_length (peaks : List ℕ) (d pj : ℤ) (n : ℕ) :
    ∀ (k : ℕ) (keep : List Bool),
      (killRight peaks d pj n k keep).length = keep.length := by
  intro k keep
  unfold killRight
  split
  · rw [killRight_length peaks d pj n (k + 1)]
    simp
  · rfl
termination_by k => n - k
decreasing_by omega

theorem killLeft_mono (peaks : List ℕ) (d pj : ℤ) (q : ℕ) :
    ∀ (k : ℕ) (keep : List Bool),
      (killLeft peaks d pj k keep).getD q false = true →
      keep.getD q false = true
  | 0, keep => by
    unfold killLeft
    split
    · exact fun h => getD_set_false_true keep 0 q h
    · exact id
  | k + 1, keep => by
    unfold killLeft
    split
    · intro h
      exact getD_set_false_true keep (k + 1) q
        (killLeft_mono peaks d pj q k _ h)
    · exact id

theorem killRight_mono (peaks : List ℕ) (d pj : ℤ) (n : ℕ) (q : ℕ) :
    ∀ (k : ℕ) (keep : List Bool),
      (killRight peaks d pj n k keep).getD q false = true →
      keep.getD q false = true := by
  intro k keep
  unfold killRight
  split
  · intro h
    exact getD_set_false_true keep k q
      (killRight_mono peaks d pj n q (k + 1) _ h)
  · exact id
termination_by k => n - k
decreasing_by omega

theorem distStep_mono (peaks : List ℕ) (d : ℤ) (keep : List Bool)
    (j q : ℕ) :
    (distStep peaks d keep j).getD q false = true →
    keep.getD q false = true := by
  unfold distStep
  split
  · exact id
  · intro h
    have h1 := killRight_mono peaks d _ peaks.length q (j + 1) _ h
    by_cases hj : j = 0
    · rw [hj] at h1
      simpa [hj] using h1
    · rw [if_neg hj] at h1
      exact killLeft_mono peaks d _ q (j - 1) keep h1

theorem foldl_distStep_mono (peaks : List ℕ) (d : ℤ) (q : ℕ) :
    ∀ (l : List ℕ) (s : List Bool),
      ((l.foldl (distStep peaks d) s).getD q false = true) →
      s.getD q false = true
  | [], s => id
  | j :: l, s => by
    intro h
    rw [List.foldl_cons] at h
    exact distStep_mono peaks d s j q (foldl_distStep_mono peaks d q l _ h)

theorem distStep_length (peaks : List ℕ) (d : ℤ) (keep : List Bool)
    (j : ℕ) : (distStep peaks d keep j).length = keep.length := by
  unfold distStep
  split
  · rfl
  · rw [killRight_length]
    by_cases hj : j = 0
    · simp [hj]
    · rw [if_neg hj, killLeft_length]

theorem foldl_distStep_length (peaks : List ℕ) (d : ℤ) :
    ∀ (l : List ℕ) (s : List Bool),
      (l.foldl (distStep peaks d) s).length = s.length
  | [], s => rfl
  | j :: l, s => by
    rw [List.foldl_cons, foldl_distStep_length peaks d l _, distStep_length]

theorem killLeft_kills (peaks : List ℕ) (d pj : ℤ)
    (hsort : ∀ a b, a < b → b < peaks.length →
      peaks.getD a 0 < peaks.getD b 0) :
    ∀ (k : ℕ) (keep : List Bool) (q : ℕ), k < peaks.length → q ≤ k →
      q < keep.length → pj - (peaks.getD q 0 : ℤ) < d →
      (killLeft peaks d pj k keep).getD q false = false
  | 0, keep, q, hk, hq, hql, hgap => by
    interval_cases q
    unfold killLeft
    split
    · exact getD_set_false_self keep 0 hql
    · next hcond => exact absurd hgap hcond
  | k + 1, keep, q, hk, hq, hql, hgap => by
    unfold killLeft
    split
    · show (killLeft peaks d pj k (keep.set (k + 1) false)).getD q false
        = false
      by_cases hqk : q = k + 1
      · -- q is cleared now and stays cleared through the rest of the walk
        cases hres : (killLeft peaks d pj k (keep.set (k + 1) false)).getD q
            false with
        | false => rfl
        | true =>
          exfalso
          have hmon := killLeft_mono peaks d pj q k _ hres
          rw [hqk] at hmon
          rw [getD_set_false_self keep (k + 1) (hqk ▸ hql)] at hmon
          exact Bool.noConfusion hmon
      · exact killLeft_kills peaks d pj hsort k _ q (by omega)
          (by omega) (by simpa using hql) hgap
    · next hcond =>
      -- the walk stopped: every index at or below k+1 is at distance >= d
      exfalso
      push_neg at hcond
      by_cases hqk : q = k + 1
      · subst hqk
        exact absurd hgap (not_lt.mpr hcond)
      · have hlt : peaks.getD q 0 < peaks.getD (k + 1) 0 :=
          hsort q (k + 1) (by omega) hk
        have hcast : (peaks.getD q 0 : ℤ) < peaks.getD (k + 1) 0 :=
          Int.ofNat_lt.mpr hlt
        linarith

theorem killRight_kills (peaks : List ℕ) (d pj : ℤ)
    (hsort : ∀ a b, a < b → b < peaks.length →
      peaks.getD a 0 < peaks.getD b 0) :
    ∀ (k : ℕ) (keep : List Bool) (q : ℕ), k ≤ q → q < peaks.length →
      q < keep.length → (peaks.getD q 0 : ℤ) - pj < d →
      (killRight peaks d pj peaks.length k keep).getD q false = false := by
  intro k keep q hkq hq hql hgap
  unfold killRight
  split
  · by_cases hqk : q = k
    · subst hqk
      cases hres : (killRight peaks d pj peaks.length (q + 1)
          (keep.set q false)).getD q false
      · rfl
      · exfalso
        have hmon := killRight_mono peaks d pj peaks.length q (q + 1) _ hres
        rw [getD_set_false_self keep q hql] at hmon
        exact Bool.noConfusion hmon
    · exact killRight_kills peaks d pj hsort (k + 1) _ q (by omega) hq
        (by simpa using hql) hgap
  · next hcond =>
    exfalso
    push_neg at hcond
    rcases Nat.lt_or_ge k peaks.length with hkn | hkn
    · have hge := hcond hkn
      by_cases hqk : q = k
      · subst hqk
        exact absurd hgap (not_lt.mpr hge)
      · have hlt : peaks.getD k 0 < peaks.getD q 0 :=
          hsort k q (by omega) hq
        linarith [(Int.ofNat_lt.mpr hlt : (peaks.getD k 0 : ℤ) < peaks.getD q 0)]
    · omega
termination_by k => peaks.length - k
decreasing_by omega

theorem killLeft_getD_of_gt (peaks : List ℕ) (d pj : ℤ) (q : ℕ) :
    ∀ (k : ℕ) (keep : List Bool), k < q →
      (killLeft peaks d pj k keep).getD q false = keep.getD q false
  | 0, keep, hkq => by
    unfold killLeft
    split
    · rw [List.getD_eq_getElem?_getD, List.getElem?_set_ne (by omega),
        ← List.getD_eq_getElem?_getD]
    · rfl
  | k + 1, keep, hkq => by
    unfold killLeft
    split
    · rw [killLeft_getD_of_gt peaks d pj q k _ (by omega),
        List.getD_eq_getElem?_getD, List.getElem?_set_ne (by omega),
        ← List.getD_eq_getElem?_getD]
    · rfl

theorem distStep_kills (peaks : List ℕ) (d : ℤ)
    (hsort : ∀ a b, a < b → b < peaks.length →
      peaks.getD a 0 < peaks.getD b 0)
    (keep : List Bool) (j q : ℕ) (hj : j < peaks.length)
    (hq : q < peaks.length) (hql : q < keep.length) (hqj : q ≠ j)
    (hgap : |(peaks.getD q 0 : ℤ) - peaks.getD j 0| < d)
    (hkeepj : keep.getD j false = true) :
    (distStep peaks d keep j).getD q false = false := by
  unfold distStep
  rw [if_neg (by rw [hkeepj]; simp)]
  show (killRight peaks d (peaks.getD j 0 : ℤ) peaks.length (j + 1)
      (if j = 0 then keep
       else killLeft peaks d (peaks.getD j 0 : ℤ) (j - 1) keep)).getD q false
    = false
  rcases Nat.lt_or_ge q j with hlt | hge
  · -- q is left of j: the left walk clears it, the right walk keeps it clear
    have hqlt : peaks.getD q 0 < peaks.getD j 0 := hsort q j hlt hj
    have habs : (peaks.getD j 0 : ℤ) - peaks.getD q 0 < d := by
      rw [abs_sub_comm, abs_of_nonneg (by
        simp only [sub_nonneg, Int.ofNat_le]
        exact le_of_lt hqlt)] at hgap
      exact hgap
    have hj0 : j ≠ 0 := by omega
    rw [if_neg hj0]
    have hcleared : (killLeft peaks d (peaks.getD j 0) (j - 1) keep).getD q
        false = false :=
      killLeft_kills peaks d _ hsort (j - 1) keep q (by omega) (by omega)
        hql habs
    cases hres : (killRight peaks d (peaks.getD j 0) peaks.length (j + 1)
        (killLeft peaks d (peaks.getD j 0) (j - 1) keep)).getD q false
    · rfl
    · exfalso
      have hmon := killRight_mono peaks d _ peaks.length q (j + 1) _ hres
      rw [hcleared] at hmon
      exact Bool.noConfusion hmon
  · -- q is right of j: untouched by the left walk, cleared by the right one
    have hjlt : peaks.getD j 0 < peaks.getD q 0 := hsort j q (by omega) hq
    have habs : (peaks.getD q 0 : ℤ) - peaks.getD j 0 < d := by
      rw [abs_of_nonneg (by
        simp only [sub_nonneg, Int.ofNat_le]
        exact le_of_lt hjlt)] at hgap
      exact hgap
    have hlen1 : ∀ keep1 : List Bool, keep1.length = keep.length →
        q < keep1.length := fun k1 h => by omega
    by_cases hj0 : j = 0
    · rw [if_pos hj0]
      exact killRight_kills peaks d _ hsort (j + 1) keep q (by omega) hq
        hql habs
    · rw [if_neg hj0]
      exact killRight_kills peaks d _ hsort (j + 1) _ q (by omega) hq
        (hlen1 _ (killLeft_length peaks d _ (j - 1) keep)) habs

/-- Peaks kept by `_select_by_peak_distance` over a strictly increasing
peak-index array are pairwise at least `d` indices apart. -/
theorem select_by_peak_distance_spec (peaks : List ℕ) (priority : List ℚ)
    (d : ℤ) (hlen : priority.length = peaks.length)
    (hsort : ∀ a b, a < b → b < peaks.length →
      peaks.getD a 0 < peaks.getD b 0)
    (a b : ℕ) (ha : a < peaks.length) (hb : b < peaks.length) (hab : a ≠ b)
    (hka : (select_by_peak_distance peaks priority d).getD a false = true)
    (hkb : (select_by_peak_distance peaks priority d).getD b false = true) :
    d ≤ |(peaks.getD a 0 : ℤ) - peaks.getD b 0| := by
  by_contra hcon
  push_neg at hcon
  have hmem : a ∈ (argsortIdx priority).reverse := by
    rw [List.mem_reverse, argsortIdx,
      (List.perm_insertionSort _ (List.range priority.length)).mem_iff,
      List.mem_range, hlen]
    exact ha
  obtain ⟨l1, l2, hsplit⟩ := List.append_of_mem hmem
  unfold select_by_peak_distance at hka hkb
  rw [hsplit, List.foldl_append, List.foldl_cons] at hka hkb
  set s1 := l1.foldl (distStep peaks d) (List.replicate peaks.length true)
    with hs1
  have hlen1 : s1.length = peaks.length := by
    rw [hs1, foldl_distStep_length, List.length_replicate]
  have h2 : (distStep peaks d s1 a).getD a false = true :=
    foldl_distStep_mono peaks d a l2 _ hka
  have h1 : s1.getD a false = true := distStep_mono peaks d s1 a a h2
  have hkill : (distStep peaks d s1 a).getD b false = false :=
    distStep_kills peaks d hsort s1 a b ha hb (by omega) (Ne.symm hab)
      (by rw [abs_sub_comm]; exact hcon) h1
  have hkb2 : (distStep peaks d s1 a).getD b false = true :=
    foldl_distStep_mono peaks d b l2 _ hkb
  rw [hkill] at hkb2
  exact Bool.noConfusion hkb2

theorem applyKeep_cons (x : ℕ) (xs : List ℕ) (k : Bool) (ks : List Bool) :
    applyKeep (x :: xs) (k :: ks)
      = (if k then [x] else []) ++ applyKeep xs ks := by
  cases k <;> simp [applyKeep]

theorem applyKeep_mem :
    ∀ (xs : List ℕ) (keep : List Bool) (p : ℕ), p ∈ applyKeep xs keep →
      ∃ i, i < xs.length ∧ i < keep.length ∧ xs.getD i 0 = p ∧
        keep.getD i false = true
  | [], keep, p => by simp [applyKeep]
  | x :: xs, [], p => by simp [applyKeep]
  | x :: xs, k :: ks, p => by
    intro h
    rw [applyKeep_cons] at h
    cases k with
    | false =>
      simp only [Bool.false_eq_true, if_false, List.nil_append] at h
      obtain ⟨i, h1, h2, h3, h4⟩ := applyKeep_mem xs ks p h
      exact ⟨i + 1, by simpa using h1, by simpa using h2, by simpa using h3,
        by simpa using h4⟩
    | true =>
      simp only [if_true, List.singleton_append, List.mem_cons] at h
      rcases h with rfl | h
      · exact ⟨0, by simp, by simp, by simp, by simp⟩
      · obtain ⟨i, h1, h2, h3, h4⟩ := applyKeep_mem xs ks p h
        exact ⟨i + 1, by simpa using h1, by simpa using h2,
          by simpa using h3, by simpa using h4⟩

theorem plateauSteps_le (x : List ℚ) (i_max : ℕ) (v : ℚ) :
    ∀ (k : ℕ), k ≤ i_max → k + plateauSteps x i_max v k ≤ i_max := by
  intro k hk
  unfold plateauSteps
  split
  · next h =>
    have := plateauSteps_le x i_max v (k + 1) (by omega)
    omega
  · omega
termination_by k => i_max - k
decreasing_by omega

theorem plateauEnd_ge' (x : List ℚ) (i_max : ℕ) (v : ℚ) (k : ℕ) :
    k ≤ plateauEnd x i_max v k :=
  Nat.le_add_right k _

theorem plateauEnd_le' (x : List ℚ) (i_max : ℕ) (v : ℚ) (k : ℕ)
    (hk : k ≤ i_max) : plateauEnd x i_max v k ≤ i_max :=
  plateauSteps_le x i_max v k hk

theorem localMaximaAux_mem_ge (x : List ℚ) (i_max : ℕ) :
    ∀ (i : ℕ) (p : ℕ), p ∈ localMaximaAux x i_max i → i ≤ p := by
  intro i p hp
  unfold localMaximaAux at hp
  split at hp
  · next hi =>
    split at hp
    · split at hp
      · simp only [List.mem_cons] at hp
        rcases hp with rfl | hp
        · have hA := plateauEnd_ge' x i_max (x.getD i 0) (i + 1)
          rw [Nat.le_div_iff_mul_le (by norm_num : 0 < 2)]
          omega
        · have := localMaximaAux_mem_ge x i_max _ p hp
          have := plateauEnd_ge' x i_max (x.getD i 0) (i + 1)
          omega
      · have := localMaximaAux_mem_ge x i_max (i + 1) p hp
        omega
    · have := localMaximaAux_mem_ge x i_max (i + 1) p hp
      omega
  · simp at hp
termination_by i => i_max - i
decreasing_by
  all_goals first
  | omega
  | (unfold plateauEnd
     omega)

theorem localMaximaAux_mem_lt (x : List ℚ) (i_max : ℕ) :
    ∀ (i : ℕ) (p : ℕ), p ∈ localMaximaAux x i_max i → p < i_max := by
  intro i p hp
  unfold localMaximaAux at hp
  split at hp
  · next hi =>
    split at hp
    · split at hp
      · simp only [List.mem_cons] at hp
        rcases hp with rfl | hp
        · have h1 := plateauEnd_ge' x i_max (x.getD i 0) (i + 1)
          have h2 := plateauEnd_le' x i_max (x.getD i 0) (i + 1) (by omega)
          rw [Nat.div_lt_iff_lt_mul (by norm_num : 0 < 2)]
          omega
        · exact localMaximaAux_mem_lt x i_max _ p hp
      · exact localMaximaAux_mem_lt x i_max (i + 1) p hp
    · exact localMaximaAux_mem_lt x i_max (i + 1) p hp
  · simp at hp
termination_by i => i_max - i
decreasing_by
  all_goals first
  | omega
  | (unfold plateauEnd
     omega)

theorem localMaximaAux_pairwise (x : List ℚ) (i_max : ℕ) :
    ∀ (i : ℕ), List.Pairwise (· < ·) (localMaximaAux x i_max i) := by
  intro i
  unfold localMaximaAux
  split
  · next hi =>
    split
    · split
      · refine List.Pairwise.cons ?_ (localMaximaAux_pairwise x i_max _)
        intro p hp
        have h1 := localMaximaAux_mem_ge x i_max _ p hp
        have h2 := plateauEnd_ge' x i_max (x.getD i 0) (i + 1)
        have h3 : (i + (plateauEnd x i_max (x.getD i 0) (i + 1) - 1)) / 2
            < plateauEnd x i_max (x.getD i 0) (i + 1) + 1 := by
          rw [Nat.div_lt_iff_lt_mul (by norm_num : 0 < 2)]
          omega
        omega
      · exact localMaximaAux_pairwise x i_max (i + 1)
    · exact localMaximaAux_pairwise x i_max (i + 1)
  · exact List.Pairwise.nil
termination_by i => i_max - i
decreasing_by
  all_goals first
  | omega
  | (unfold plateauEnd
     omega)

theorem find_peaks_eq (x : List ℚ) (height : Option ℚ) (d : ℤ)
    (pmin : ℚ) :
    find_peaks x height d pmin
      = prominenceFilter x pmin
          (applyKeep (heightFilter x height (local_maxima_1d x))
            (select_by_peak_distance
              (heightFilter x height (local_maxima_1d x))
              ((heightFilter x height (local_maxima_1d x)).map
                (fun p => x.getD p 0)) d)) := rfl

theorem heightFilter_pairwise (x : List ℚ) (height : Option ℚ) :
    List.Pairwise (· < ·) (heightFilter x height (local_maxima_1d x)) := by
  unfold heightFilter
  cases height with
  | none => exact List.Pairwise.nil
  | some h =>
    exact List.Pairwise.filter _ (localMaximaAux_pairwise x (x.length - 1) 1)

theorem heightFilter_mem_lt (x : List ℚ) (height : Option ℚ) (p : ℕ)
    (hp : p ∈ heightFilter x height (local_maxima_1d x)) :
    p < x.length - 1 := by
  unfold heightFilter at hp
  cases height with
  | none => simp at hp
  | some h =>
    exact localMaximaAux_mem_lt x (x.length - 1) 1 p (List.mem_filter.mp hp).1

theorem pairwise_getD_lt (l : List ℕ) (hpw : List.Pairwise (· < ·) l) :
    ∀ a b, a < b → b < l.length → l.getD a 0 < l.getD b 0 := by
  intro a b hab hb
  rw [List.getD_eq_getElem l 0 (by omega), List.getD_eq_getElem l 0 hb]
  exact List.pairwise_iff_get.mp hpw ⟨a, by omega⟩ ⟨b, hb⟩ hab

/-- Peaks returned by the modelled `find_peaks` lie strictly inside the
array. -/
theorem find_peaks_mem_lt (x : List ℚ) (height : Option ℚ) (d : ℤ)
    (pmin : ℚ) (p : ℕ) (hp : p ∈ find_peaks x height d pmin) :
    p < x.length - 1 := by
  rw [find_peaks_eq] at hp
  have hp2 := (List.mem_filter.mp hp).1
  obtain ⟨i, hi1, _, hi3, _⟩ := applyKeep_mem _ _ p hp2
  have : p ∈ heightFilter x height (local_maxima_1d x) := by
    rw [← hi3, List.getD_eq_getElem _ 0 hi1]
    exact List.getElem_mem hi1
  exact heightFilter_mem_lt x height p this

/-- Any two distinct peaks returned by the modelled `find_peaks` are at
least `d` samples apart. -/
theorem find_peaks_separation (x : List ℚ) (height : Option ℚ) (d : ℤ)
    (pmin : ℚ) (p1 p2 : ℕ) (h1 : p1 ∈ find_peaks x height d pmin)
    (h2 : p2 ∈ find_peaks x height d pmin) (hne : p1 ≠ p2) :
    d ≤ |(p1 : ℤ) - p2| := by
  rw [find_peaks_eq] at h1 h2
  have h1k := (List.mem_filter.mp h1).1
  have h2k := (List.mem_filter.mp h2).1
  obtain ⟨a, ha1, ha2, ha3, ha4⟩ := applyKeep_mem _ _ p1 h1k
  obtain ⟨b, hb1, hb2, hb3, hb4⟩ := applyKeep_mem _ _ p2 h2k
  have hsort := pairwise_getD_lt _ (heightFilter_pairwise x height)
  have hab : a ≠ b := by
    intro hEq
    exact hne (by rw [← ha3, ← hb3, hEq])
  have hsep := select_by_peak_distance_spec
    (heightFilter x height (local_maxima_1d x))
    ((heightFilter x height (local_maxima_1d x)).map (fun p => x.getD p 0))
    d (by simp) hsort a b ha1 hb1 hab ha4 hb4
  rw [ha3, hb3] at hsep
  exact hsep

end FindPeaks

/-- Equation for `SpectrumScanner.detect_peaks` on a nonempty frequency
array, with every local binding expanded. -/
theorem detect_peaks_eval (ptd mpd : ℚ) (F P : List ℚ)
    (tdb mdh : Option ℚ) (hne : ¬ F.length = 0) :
    SpectrumScanner.detect_peaks ⟨ptd, mpd⟩ F P tdb mdh
      = (FindPeaks.find_peaks P
          ((if P.length * 3 / 10 = 0 then (none : Option ℚ)
            else some (npMedian ((npSort P).take (P.length * 3 / 10)))).map
            (fun nf => nf + pyOr tdb ptd))
          (max 1 (pyInt (pyOr mdh mpd /
            (if 1 < F.length then
              (F.getD (F.length - 1) 0 - F.getD 0 0) / ((F.length : ℚ) - 1)
             else 1)))) 3).map
        (fun p =>
          { frequency := F.getD p 0
            power_dbm := P.getD p 0
            bandwidth := SpectrumScanner._estimate_bandwidth F P p
            snr_db := P.getD p 0 -
              (if P.length * 3 / 10 = 0 then (none : Option ℚ)
               else some (npMedian ((npSort P).take
                 (P.length * 3 / 10)))).getD 0 }) := by
  unfold SpectrumScanner.detect_peaks
  rw [if_neg hne]

set_option maxRecDepth 8000 in
set_option maxHeartbeats 1600000 in
/-- C3 counterexample: with frequencies spaced 10 Hz apart and
`min_distance_hz = 25`, the integer truncation `int(25 / 10) = 2` lets
`detect_peaks` keep peaks two bins apart: it returns signals at 10 Hz and
30 Hz, whose separation 20 Hz is smaller than the requested 25 Hz. -/
theorem C3_counterexample :
    (SpectrumScanner.detect_peaks {} [0, 10, 20, 30, 40]
        [-100, 0, -100, 1, -100] (some 10) (some 25)).map
      DetectedSignal.frequency = [10, 30]
    ∧ |(30 : ℚ) - 10| < 25 := by
  constructor
  ·
    have hsort : npSort [-100, 0, -100, 1, -100] = [-100, -100, -100, 0, 1] := by
      norm_num [npSort, List.insertionSort, List.orderedInsert]
    have hpe2 : FindPeaks.plateauEnd [-100, 0, -100, 1, -100] 4 (0 : ℚ) 2 = 2 := by
      rw [FindPeaks.plateauEnd, FindPeaks.plateauSteps]
      norm_num
    have hpe4 : FindPeaks.plateauEnd [-100, 0, -100, 1, -100] 4 (1 : ℚ) 4 = 4 := by
      rw [FindPeaks.plateauEnd, FindPeaks.plateauSteps]
      norm_num
    have hlm5 : FindPeaks.localMaximaAux [-100, 0, -100, 1, -100] 4 5 = [] := by
      rw [FindPeaks.localMaximaAux]
      norm_num
    have hlm3 : FindPeaks.localMaximaAux [-100, 0, -100, 1, -100] 4 3 = [3] := by
      rw [FindPeaks.localMaximaAux]
      norm_num [hpe4, hlm5]
    have hlm1 : FindPeaks.localMaximaAux [-100, 0, -100, 1, -100] 4 1 = [1, 3] := by
      rw [FindPeaks.localMaximaAux]
      norm_num [hpe2, hlm3]
    have hlm : FindPeaks.local_maxima_1d [-100, 0, -100, 1, -100] = [1, 3] := by
      rw [FindPeaks.local_maxima_1d]
      norm_num [hlm1]
    have hhf : FindPeaks.heightFilter [-100, 0, -100, 1, -100] (some (-90))
        [1, 3] = [1, 3] := by
      norm_num [FindPeaks.heightFilter]
    have hrange : List.range 2 = [0, 1] := by
      norm_num [List.range_succ]
    have has : FindPeaks.argsortIdx [0, 1] = [0, 1] := by
      rw [FindPeaks.argsortIdx]
      norm_num [hrange, List.insertionSort, List.orderedInsert]
    have hkl0 : FindPeaks.killLeft [1, 3] 2 3 0 [true, true]
        = [true, true] := by
      rw [FindPeaks.killLeft]
      norm_num
    have hkr2 : FindPeaks.killRight [1, 3] 2 3 2 2 [true, true]
        = [true, true] := by
      rw [FindPeaks.killRight]
      norm_num
    have hds1 : FindPeaks.distStep [1, 3] 2 [true, true] 1 = [true, true] := by
      unfold FindPeaks.distStep
      norm_num [hkl0, hkr2]
    have hkr1 : FindPeaks.killRight [1, 3] 2 1 2 1 [true, true]
        = [true, true] := by
      rw [FindPeaks.killRight]
      norm_num
    have hds0 : FindPeaks.distStep [1, 3] 2 [true, true] 0 = [true, true] := by
      unfold FindPeaks.distStep
      norm_num [hkr1]
    have hsel : FindPeaks.select_by_peak_distance [1, 3] [0, 1] 2
        = [true, true] := by
      rw [FindPeaks.select_by_peak_distance, has]
      have e1 : ([0, 1] : List ℕ).reverse = [1, 0] := rfl
      have e2 : List.replicate ([1, 3] : List ℕ).length true = [true, true] :=
        rfl
      rw [e1, e2, List.foldl_cons, List.foldl_cons, List.foldl_nil, hds1, hds0]
    have hak : FindPeaks.applyKeep [1, 3] [true, true] = [1, 3] := by
      norm_num [FindPeaks.applyKeep, List.filterMap_cons, List.filterMap_nil]
    have hL0 : FindPeaks.promLeftMin [-100, 0, -100, 1, -100] 0 0 0 = -100 := by
      rw [FindPeaks.promLeftMin]
      norm_num [min_def]
    have hL1 : FindPeaks.promLeftMin [-100, 0, -100, 1, -100] 0 1 0 = -100 := by
      rw [FindPeaks.promLeftMin]
      norm_num [min_def, hL0]
    have hR2 : FindPeaks.promRightMin [-100, 0, -100, 1, -100] 0 4 2 0
        = -100 := by
      rw [FindPeaks.promRightMin]
      norm_num [min_def]
    have hR1 : FindPeaks.promRightMin [-100, 0, -100, 1, -100] 0 4 1 0
        = -100 := by
      rw [FindPeaks.promRightMin]
      norm_num [min_def, hR2]
    have hpr1 : FindPeaks.prominence [-100, 0, -100, 1, -100] 1 = 100 := by
      rw [FindPeaks.prominence]
      norm_num [hL1, hR1, max_def]
    have hL3c : FindPeaks.promLeftMin [-100, 0, -100, 1, -100] 1 0 (-100)
        = -100 := by
      rw [FindPeaks.promLeftMin]
      norm_num [min_def]
    have hL3b : FindPeaks.promLeftMin [-100, 0, -100, 1, -100] 1 1 (-100)
        = -100 := by
      rw [FindPeaks.promLeftMin]
      norm_num [min_def, hL3c]
    have hL3a : FindPeaks.promLeftMin [-100, 0, -100, 1, -100] 1 2 1
        = -100 := by
      rw [FindPeaks.promLeftMin]
      norm_num [min_def, hL3b]
    have hL3 : FindPeaks.promLeftMin [-100, 0, -100, 1, -100] 1 3 1
        = -100 := by
      rw [FindPeaks.promLeftMin]
      norm_num [min_def, hL3a]
    have hR4 : FindPeaks.promRightMin [-100, 0, -100, 1, -100] 1 4 4 1
        = -100 := by
      rw [FindPeaks.promRightMin]
      norm_num [min_def]
    have hR3 : FindPeaks.promRightMin [-100, 0, -100, 1, -100] 1 4 3 1
        = -100 := by
      rw [FindPeaks.promRightMin]
      norm_num [min_def, hR4]
    have hpr3 : FindPeaks.prominence [-100, 0, -100, 1, -100] 3 = 101 := by
      rw [FindPeaks.prominence]
      norm_num [hL3, hR3, max_def]
    have hpf : FindPeaks.prominenceFilter [-100, 0, -100, 1, -100] 3 [1, 3]
        = [1, 3] := by
      norm_num [FindPeaks.prominenceFilter, hpr1, hpr3]
    have hmap : ([1, 3] : List ℕ).map
        (fun p => ([-100, 0, -100, 1, -100] : List ℚ).getD p 0) = [0, 1] := by
      norm_num
    have hfp : FindPeaks.find_peaks [-100, 0, -100, 1, -100] (some (-90)) 2 3
        = [1, 3] := by
      rw [FindPeaks.find_peaks_eq, hlm, hhf, hmap, hsel, hak, hpf]
    rw [detect_peaks_eval 10 100e3 [0, 10, 20, 30, 40]
      [-100, 0, -100, 1, -100] (some 10) (some 25) (by norm_num)]
    rw [show (([-100, 0, -100, 1, -100] : List ℚ).length * 3 / 10) = 1 from
      rfl]
    rw [if_neg (one_ne_zero)]
    have hmed : npMedian ((npSort [-100, 0, -100, 1, -100]).take 1)
        = -100 := by
      rw [hsort]
      norm_num [npMedian, npSort, List.insertionSort, List.orderedInsert]
    rw [hmed]
    have hD : max 1 (pyInt (pyOr (some 25) 100e3 /
        (if 1 < ([0, 10, 20, 30, 40] : List ℚ).length then
          (([0, 10, 20, 30, 40] : List ℚ).getD
              (([0, 10, 20, 30, 40] : List ℚ).length - 1) 0 -
            ([0, 10, 20, 30, 40] : List ℚ).getD 0 0) /
              ((([0, 10, 20, 30, 40] : List ℚ).length : ℚ) - 1)
         else 1))) = 2 := by
      norm_num [pyOr, pyInt, max_def]
    rw [hD]
    have hH : (some (-100 : ℚ)).map (fun nf => nf + pyOr (some 10) 10)
        = some (-90) := by
      norm_num [pyOr]
    rw [hH, hfp]
    norm_num
  · norm_num

/-- C3 (amended): over a uniform frequency grid of spacing `step > 0`,
any two distinct peaks returned by `SpectrumScanner.detect_peaks` differ
in frequency by at least `max(1, int(min_distance_hz / step)) * step` —
the requested distance rounded DOWN to a whole number of bins (and floored
at one bin), not `min_distance_hz` itself. -/
theorem C3_detect_peaks_separation (cfg : ScannerConfig)
    (frequencies power_dbm : List ℚ)
    (threshold_db min_distance_hz : Option ℚ) (f0 step : ℚ)
    (hstep : 0 < step) (hn : 2 ≤ frequencies.length)
    (hlen : frequencies.length = power_dbm.length)
    (hap : ∀ k, k < frequencies.length →
      frequencies.getD k 0 = f0 + (k : ℚ) * step) :
    ∀ s1 ∈ SpectrumScanner.detect_peaks cfg frequencies power_dbm
        threshold_db min_distance_hz,
    ∀ s2 ∈ SpectrumScanner.detect_peaks cfg frequencies power_dbm
        threshold_db min_distance_hz,
      s1.frequency ≠ s2.frequency →
      ((max 1 (pyInt (pyOr min_distance_hz cfg.min_peak_distance_hz / step))
          : ℤ) : ℚ) * step ≤ |s1.frequency - s2.frequency| := by
  intro s1 hs1 s2 hs2 hne
  have hne0 : ¬(frequencies.length = 0) := by omega
  unfold SpectrumScanner.detect_peaks at hs1 hs2
  rw [if_neg hne0] at hs1 hs2
  simp only [List.mem_map] at hs1 hs2
  obtain ⟨p1, hp1, rfl⟩ := hs1
  obtain ⟨p2, hp2, rfl⟩ := hs2
  dsimp only at hne ⊢
  have hfs : (if 1 < frequencies.length then
      (frequencies.getD (frequencies.length - 1) 0 - frequencies.getD 0 0) /
        ((frequencies.length : ℚ) - 1)
      else 1) = step := by
    rw [if_pos (by omega)]
    rw [hap (frequencies.length - 1) (by omega), hap 0 (by omega)]
    have hcast : ((frequencies.length - 1 : ℕ) : ℚ)
        = (frequencies.length : ℚ) - 1 := by
      push_cast [Nat.cast_sub (by omega : 1 ≤ frequencies.length)]
      ring
    rw [hcast]
    have hne1 : ((frequencies.length : ℚ) - 1) ≠ 0 := by
      have h2n : (2 : ℚ) ≤ (frequencies.length : ℚ) := by exact_mod_cast hn
      linarith
    rw [div_eq_iff hne1]
    push_cast
    ring
  rw [hfs] at hp1 hp2
  have hb1 : p1 < frequencies.length := by
    have := FindPeaks.find_peaks_mem_lt _ _ _ _ p1 hp1
    omega
  have hb2 : p2 < frequencies.length := by
    have := FindPeaks.find_peaks_mem_lt _ _ _ _ p2 hp2
    omega
  have hne12 : p1 ≠ p2 := fun hEq => hne (by rw [hEq])
  have hsep := FindPeaks.find_peaks_separation _ _ _ _ p1 p2 hp1 hp2 hne12
  rw [hap p1 hb1, hap p2 hb2]
  have hdiff : (f0 + (p1 : ℚ) * step) - (f0 + (p2 : ℚ) * step)
      = ((p1 : ℚ) - p2) * step := by ring
  rw [hdiff, abs_mul, abs_of_pos hstep]
  have hcastsep :
      ((max 1 (pyInt (pyOr min_distance_hz cfg.min_peak_distance_hz / step))
        : ℤ) : ℚ) ≤ |(p1 : ℚ) - p2| := by
    have h2 : ((max 1 (pyInt (pyOr min_distance_hz
          cfg.min_peak_distance_hz / step)) : ℤ) : ℚ)
        ≤ ((|(p1 : ℤ) - (p2 : ℤ)| : ℤ) : ℚ) := by exact_mod_cast hsep
    rwa [Int.cast_abs, Int.cast_sub, Int.cast_natCast, Int.cast_natCast]
      at h2
  exact mul_le_mul_of_nonneg_right hcastsep (le_of_lt hstep)

/-- C3 witness: on the 10 Hz grid of the counterexample the amended bound
holds — every returned pair of distinct peaks is at least
`int(25 / 10) * 10 = 20` Hz apart. -/
theorem C3_detect_peaks_separation_witness :
    (0 : ℚ) < 10 ∧ 2 ≤ ([0, 10, 20, 30, 40] : List ℚ).length
    ∧ ([0, 10, 20, 30, 40] : List ℚ).length
        = ([-100, 0, -100, 1, -100] : List ℚ).length
    ∧ (∀ s1 ∈ SpectrumScanner.detect_peaks {} [0, 10, 20, 30, 40]
          [-100, 0, -100, 1, -100] (some 10) (some 25),
       ∀ s2 ∈ SpectrumScanner.detect_peaks {} [0, 10, 20, 30, 40]
          [-100, 0, -100, 1, -100] (some 10) (some 25),
        s1.frequency ≠ s2.frequency →
        ((max 1 (pyInt (pyOr (some 25)
            (ScannerConfig.min_peak_distance_hz {}) / 10)) : ℤ) : ℚ) * 10
          ≤ |s1.frequency - s2.frequency|) :=
  ⟨by norm_num, by norm_num, by norm_num,
   C3_detect_peaks_separation {} [0, 10, 20, 30, 40]
     [-100, 0, -100, 1, -100] (some 10) (some 25) 0 10 (by norm_num)
     (by norm_num) (by norm_num)
     (by
       intro k hk
       simp only [List.length_cons, List.length_nil] at hk
       interval_cases k <;> norm_num)⟩

/-- Reference fact for C1: the linear-domain averaging the spec mandates
is idempotent on identical chunks, here for two one-bin chunks at any
dBm level. -/
theorem specLinearAverage_pair_identical (p : ℝ) :
    specLinearAverage [[p], [p]] = some [p] := by
  unfold specLinearAverage
  simp only [List.map, List.foldl, List.zipWith, List.replicate]
  have h10 : (0 : ℝ) < 10 := by norm_num
  have : (0 + (10 : ℝ) ^ (p / 10) + (10 : ℝ) ^ (p / 10)) / 2
      = (10 : ℝ) ^ (p / 10) := by ring
  simp only [List.length_cons, List.length_nil]
  norm_num [this]
  ring

end SDRScan
